import Mathlib

/-!
Verification of the Hydrosphère owning-handle primitive
(libhydrosphere/source/common/compiler/unique_ptr.cpp).

The C++ class `unique_ptr<T>` stores a single raw pointer `native_ptr_`;
the empty sentinel is `nullptr`.  We embed pointers as natural numbers
with `0` playing the role of `nullptr`, so a handle is a structure with
one field.  Every operation that may run `delete` additionally returns
the list of addresses of the objects it actually destroyed (C++ `delete`
on a null pointer destroys nothing, which `deleted` reflects).
-/

/-- Machine addresses; `0` is the `nullptr` sentinel. -/
abbrev Ptr := Nat

/-- The empty sentinel stored by an empty handle. -/
def nullptr : Ptr := 0

/-- The addresses destroyed by the C++ expression `delete p`:
none when `p` is null, exactly the pointee otherwise. -/
def deleted (p : Ptr) : List Ptr :=
  if p = nullptr then [] else [p]

/-- The owning handle: C++ `unique_ptr<T>` with its single data member
`T *native_ptr_`. -/
structure unique_ptr where
  native_ptr_ : Ptr
deriving DecidableEq, Repr

namespace unique_ptr

/-- Default constructor `unique_ptr() : native_ptr_(nullptr)`. -/
def default_ctor : unique_ptr := ⟨nullptr⟩

/-- Constructor `unique_ptr(T *ptr) : native_ptr_(ptr)`. -/
def raw_ctor (p : Ptr) : unique_ptr := ⟨p⟩

/-- The transfer ("copy") constructor
`unique_ptr(const unique_ptr &ptr)`: the new handle takes `ptr`'s
address and `ptr.native_ptr_` is forced to `nullptr` through the
`const_cast`.  Returns (new handle, source after the transfer). -/
def transfer_ctor (src : unique_ptr) : unique_ptr × unique_ptr :=
  (⟨src.native_ptr_⟩, ⟨nullptr⟩)

/-- Private member `destroy()`: `delete native_ptr_; native_ptr_ = nullptr;`.
Returns the handle after the call and the destruction log. -/
def destroy (u : unique_ptr) : unique_ptr × List Ptr :=
  (⟨nullptr⟩, deleted u.native_ptr_)

/-- Destructor `~unique_ptr() { destroy(); }` (returns the destruction log
of the object the dying handle owned). -/
def dtor (u : unique_ptr) : List Ptr :=
  (destroy u).2

/-- `reset()`: `destroy();`. -/
def reset_empty (u : unique_ptr) : unique_ptr × List Ptr :=
  destroy u

/-- The runtime reading of the guard `(nullptr == ptr) || (native_ptr_ != ptr)`
asserted at the head of `reset(T *ptr)`. -/
def reset_assert (u : unique_ptr) (p : Ptr) : Prop :=
  nullptr = p ∨ u.native_ptr_ ≠ p

/-- `reset(T *ptr)`: after the assertion, `destroy(); native_ptr_ = ptr;`. -/
def reset (u : unique_ptr) (p : Ptr) : unique_ptr × List Ptr :=
  let r := destroy u
  (⟨p⟩, r.2)

/-- `swap(unique_ptr &ptr)`:
`auto temp = native_ptr_; native_ptr_ = ptr.native_ptr_; ptr.native_ptr_ = temp;`.
Returns (`*this` after, `ptr` after). -/
def swap (a b : unique_ptr) : unique_ptr × unique_ptr :=
  let temp := a.native_ptr_
  (⟨b.native_ptr_⟩, ⟨temp⟩)

/-- `release()`: `T *temp = native_ptr_; native_ptr_ = nullptr; return temp;`.
Returns (returned address, handle after). -/
def release (u : unique_ptr) : Ptr × unique_ptr :=
  let temp := u.native_ptr_
  (temp, ⟨nullptr⟩)

/-- `operator bool()`: `nullptr != native_ptr_`. -/
def op_bool (u : unique_ptr) : Bool :=
  nullptr != u.native_ptr_

/-- `get()`: `return native_ptr_;`. -/
def get (u : unique_ptr) : Ptr :=
  u.native_ptr_

/-- `operator=(unique_ptr ptr)`: the argument is taken by value, so the
caller's handle is first transfer-moved into the parameter; then
`swap(ptr); return *this;`, and the parameter's destructor runs at the
end of the full expression.  Returns
(`*this` after, caller's source handle after, destruction log). -/
def op_assign (dst src : unique_ptr) : unique_ptr × unique_ptr × List Ptr :=
  let pc := transfer_ctor src      -- parameter `ptr` built from `src`
  let sw := swap dst pc.1          -- this->swap(ptr)
  let fin := destroy sw.2          -- parameter goes out of scope
  (sw.1, pc.2, fin.2)

/-- Reference behaviour for transfer-assignment as the specification
words it: destroy whatever `dst` currently owns, then transfer-construct
from `src` into `dst`, leaving `src` empty. -/
def assign_spec (dst src : unique_ptr) : unique_ptr × unique_ptr × List Ptr :=
  let d := destroy dst
  let tc := transfer_ctor src
  (tc.1, tc.2, d.2)

end unique_ptr

/-- Free function `operator==`: `l.get() == r.get()`. -/
def op_eq (l r : unique_ptr) : Bool :=
  l.get == r.get

/-- Free function `operator!=`: `l.get() != r.get()`. -/
def op_ne (l r : unique_ptr) : Bool :=
  l.get != r.get

/-- Free function `operator<=`: `l.get() <= r.get()`. -/
def op_le (l r : unique_ptr) : Bool :=
  decide (l.get ≤ r.get)

/-- Free function `operator<`: `l.get() < r.get()`. -/
def op_lt (l r : unique_ptr) : Bool :=
  decide (l.get < r.get)

/-- Free function `operator>=`: `l.get() >= r.get()`. -/
def op_ge (l r : unique_ptr) : Bool :=
  decide (l.get ≥ r.get)

/-- Free function `operator>`: `l.get() > r.get()`. -/
def op_gt (l r : unique_ptr) : Bool :=
  decide (l.get > r.get)

/-- Result of a dereference: either access to the object at the stored
address, or the halt of the debug assertion `nullptr != native_ptr_`. -/
inductive DerefResult where
  | ok (addr : Ptr)
  | assertHalt
deriving DecidableEq, Repr

/-- `operator*()`: asserts `nullptr != native_ptr_`, then returns
`*native_ptr_` (access to the object at the stored address). -/
def op_star (u : unique_ptr) : DerefResult :=
  if nullptr ≠ u.native_ptr_ then .ok u.native_ptr_ else .assertHalt

/-- `operator->()`: asserts `nullptr != native_ptr_`, then returns
`native_ptr_`. -/
def op_arrow (u : unique_ptr) : DerefResult :=
  if nullptr ≠ u.native_ptr_ then .ok u.native_ptr_ else .assertHalt

/-!
A small-step machine over all live handles, used for the trace-level
claims (no double destruction on any reachable sequence of operations,
and self-transfer-assignment through the aliasing of `*this` with the
assigned-from handle).  A state records the pointer stored in each live
handle slot and the log of every destruction performed so far.
Addresses stand for object identities: constructing a handle from an
object's address requires the address to be fresh (not owned by any
live handle and never destroyed before), which models the caller
relinquishing all other ownership claims to a newly created object.
-/

/-- `operator=` run over the slot memory, exposing the aliasing between
`*this` (slot `i`) and the assigned-from handle (slot `j`): the
parameter is move-constructed from slot `j` (emptying it), `this->swap`
exchanges slot `i` with the parameter, and the parameter's destructor
deletes whatever it then holds.  Returns (new slots, destruction log). -/
def assign_run (hs : List Ptr) (i j : Nat) : List Ptr × List Ptr :=
  let param := hs.getD j nullptr       -- parameter built from slot j
  let hs1 := hs.set j nullptr          -- ... which empties slot j
  let temp := hs1.getD i nullptr       -- swap: temp = native_ptr_
  let hs2 := hs1.set i param           -- swap: native_ptr_ = ptr.native_ptr_
  let param1 := temp                   -- swap: ptr.native_ptr_ = temp
  (hs2, deleted param1)                -- ~unique_ptr on the parameter

/-- `swap` run over the slot memory (slot `i` is `*this`, slot `j` the
argument); the temporary is read before either write, so the formula is
also the aliased (`i = j`) behaviour. -/
def swap_run (hs : List Ptr) (i j : Nat) : List Ptr :=
  let temp := hs.getD i nullptr
  (hs.set i (hs.getD j nullptr)).set j temp

/-- The specification's reference program for transfer-assignment, run
over the slot memory: destroy whatever slot `i` (dst) currently owns,
then transfer-construct from slot `j` (src) into slot `i`, leaving slot
`j` empty. -/
def assign_spec_run (hs : List Ptr) (i j : Nat) : List Ptr × List Ptr :=
  let d := deleted (hs.getD i nullptr)         -- destroy what dst owns
  let hs1 := hs.set i nullptr
  let hs2 := (hs1.set i (hs1.getD j nullptr)).set j nullptr
  (hs2, d)                                     -- transfer-construct src into dst

/-- A machine state: the stored pointer of every live handle slot and
the log of destroyed addresses. -/
structure MState where
  handles : List Ptr
  destroyed : List Ptr
deriving DecidableEq, Repr

/-- One handle operation.  Each constructor is a public operation of
the class run on the slot memory; destruction logs append to
`destroyed`. -/
inductive Step : MState → MState → Prop where
  /-- `unique_ptr()` creates a new empty handle. -/
  | ctorDefault (s : MState) :
      Step s ⟨s.handles ++ [nullptr], s.destroyed⟩
  /-- `unique_ptr(T *ptr)` from the address of a fresh object `x`:
  the caller relinquishes every other claim to `p`. -/
  | ctorFromRaw (s : MState) (p : Ptr) (hp : p ≠ nullptr)
      (hown : p ∉ s.handles) (hdes : p ∉ s.destroyed) :
      Step s ⟨s.handles ++ [p], s.destroyed⟩
  /-- A handle goes out of scope: `~unique_ptr` runs `destroy()` and the
  slot disappears. -/
  | dtorStep (s : MState) (i : Nat) (hi : i < s.handles.length) :
      Step s ⟨s.handles.eraseIdx i,
              s.destroyed ++ deleted (s.handles.getD i nullptr)⟩
  /-- Transfer-construction of a new handle from slot `i`. -/
  | transferCtorStep (s : MState) (i : Nat) (hi : i < s.handles.length) :
      Step s ⟨s.handles.set i nullptr ++ [s.handles.getD i nullptr],
              s.destroyed⟩
  /-- `operator=` assigning slot `j` into slot `i` (possibly `i = j`). -/
  | assignStep (s : MState) (i j : Nat) (hi : i < s.handles.length)
      (hj : j < s.handles.length) :
      Step s ⟨(assign_run s.handles i j).1,
              s.destroyed ++ (assign_run s.handles i j).2⟩
  /-- `reset()` on slot `i`. -/
  | resetEmptyStep (s : MState) (i : Nat) (hi : i < s.handles.length) :
      Step s ⟨s.handles.set i nullptr,
              s.destroyed ++ deleted (s.handles.getD i nullptr)⟩
  /-- `reset(T *ptr)` on slot `i` with the address `q` of a fresh object
  (the caller relinquishes every other claim to `q`; the debug assertion
  requires `q` not to alias the held address). -/
  | resetStep (s : MState) (i : Nat) (q : Ptr) (hi : i < s.handles.length)
      (hq : q ≠ nullptr) (hown : q ∉ s.handles) (hdes : q ∉ s.destroyed) :
      Step s ⟨s.handles.set i q,
              s.destroyed ++ deleted (s.handles.getD i nullptr)⟩
  /-- `release()` on slot `i`: the address leaves the tracked system,
  ownership passing to the caller; nothing is destroyed. -/
  | releaseStep (s : MState) (i : Nat) (hi : i < s.handles.length) :
      Step s ⟨s.handles.set i nullptr, s.destroyed⟩
  /-- `swap` between slot `i` and slot `j` (possibly `i = j`). -/
  | swapStep (s : MState) (i j : Nat) (hi : i < s.handles.length)
      (hj : j < s.handles.length) :
      Step s ⟨swap_run s.handles i j, s.destroyed⟩

/-- The start state: no live handles, nothing destroyed yet. -/
def MState.init : MState := ⟨[], []⟩

/-- A state reachable from the start state by a sequence of handle
operations. -/
def Reachable (s : MState) : Prop :=
  Relation.ReflTransGen Step MState.init s

/-- The multiset contribution of one stored pointer: nothing for the
sentinel, the owned address otherwise. -/
def fil (p : Ptr) : Multiset Ptr :=
  if p = nullptr then 0 else {p}

/-- The multiset of addresses owned by the live handles. -/
def ownedM (hs : List Ptr) : Multiset Ptr :=
  (hs.filter (fun p => p ≠ nullptr) : List Ptr)

/-- The ownership footprint of a state: every address owned by a live
handle together with every address destroyed so far.  The machine
invariant is that this footprint has no duplicate, which at once gives
exclusive ownership and absence of double destruction. -/
def footprint (s : MState) : Multiset Ptr :=
  ownedM s.handles + (s.destroyed : Multiset Ptr)

/-- The machine invariant. -/
def MInv (s : MState) : Prop :=
  (footprint s).Nodup

/-! Helper lemmas about the ownership footprint. -/

theorem fil_nullptr : fil nullptr = 0 := rfl

theorem deleted_coe (p : Ptr) : (deleted p : Multiset Ptr) = fil p := by
  unfold deleted fil
  split <;> rfl

theorem ownedM_nil : ownedM [] = 0 := rfl

theorem ownedM_cons (p : Ptr) (hs : List Ptr) :
    ownedM (p :: hs) = fil p + ownedM hs := by
  unfold ownedM fil
  rw [List.filter_cons]
  by_cases h : p = nullptr
  · simp [h]
  · simp [h]

theorem ownedM_append (hs ls : List Ptr) :
    ownedM (hs ++ ls) = ownedM hs + ownedM ls := by
  unfold ownedM
  rw [List.filter_append]
  exact (Multiset.coe_add _ _).symm

theorem mem_of_mem_ownedM {p : Ptr} {hs : List Ptr} (h : p ∈ ownedM hs) :
    p ∈ hs := by
  unfold ownedM at h
  rw [Multiset.mem_coe, List.mem_filter] at h
  exact h.1

theorem ownedM_set (hs : List Ptr) (a : Ptr) :
    ∀ i, i < hs.length →
      ownedM (hs.set i a) + fil (hs.getD i nullptr) = ownedM hs + fil a := by
  induction hs with
  | nil => intro i hi; simp at hi
  | cons hd tl ih =>
    intro i hi
    cases i with
    | zero =>
      simp only [List.set_cons_zero, List.getD_cons_zero, ownedM_cons]
      abel
    | succ k =>
      simp only [List.set_cons_succ, List.getD_cons_succ, ownedM_cons]
      have hk : k < tl.length := by simpa using hi
      have := ih k hk
      calc fil hd + ownedM (tl.set k a) + fil (tl.getD k nullptr)
          = fil hd + (ownedM (tl.set k a) + fil (tl.getD k nullptr)) := by abel
        _ = fil hd + (ownedM tl + fil a) := by rw [this]
        _ = fil hd + ownedM tl + fil a := by abel

theorem ownedM_eraseIdx (hs : List Ptr) :
    ∀ i, i < hs.length →
      ownedM (hs.eraseIdx i) + fil (hs.getD i nullptr) = ownedM hs := by
  induction hs with
  | nil => intro i hi; simp at hi
  | cons hd tl ih =>
    intro i hi
    cases i with
    | zero =>
      simp only [List.eraseIdx_cons_zero, List.getD_cons_zero, ownedM_cons]
      abel
    | succ k =>
      simp only [List.eraseIdx_cons_succ, List.getD_cons_succ, ownedM_cons]
      have hk : k < tl.length := by simpa using hi
      have := ih k hk
      calc fil hd + ownedM (tl.eraseIdx k) + fil (tl.getD k nullptr)
          = fil hd + (ownedM (tl.eraseIdx k) + fil (tl.getD k nullptr)) := by abel
        _ = fil hd + ownedM tl := by rw [this]

theorem getD_set_self (hs : List Ptr) (a : Ptr) :
    ∀ i, i < hs.length → (hs.set i a).getD i nullptr = a := by
  induction hs with
  | nil => intro i hi; simp at hi
  | cons hd tl ih =>
    intro i hi
    cases i with
    | zero => simp
    | succ k =>
      have hk : k < tl.length := by simpa using hi
      simpa using ih k hk

theorem getD_set_other (hs : List Ptr) (a : Ptr) :
    ∀ i j, i ≠ j → (hs.set i a).getD j nullptr = hs.getD j nullptr := by
  induction hs with
  | nil => intro i j _; simp
  | cons hd tl ih =>
    intro i j hij
    cases i with
    | zero =>
      cases j with
      | zero => exact absurd rfl hij
      | succ m => simp
    | succ k =>
      cases j with
      | zero => simp
      | succ m =>
        have hkm : k ≠ m := fun h => hij (by rw [h])
        simpa using ih k m hkm

theorem set_getD_self (hs : List Ptr) :
    ∀ i, i < hs.length → hs.set i (hs.getD i nullptr) = hs := by
  induction hs with
  | nil => intro i hi; simp at hi
  | cons hd tl ih =>
    intro i hi
    cases i with
    | zero => simp
    | succ k =>
      have hk : k < tl.length := by simpa using hi
      simpa using ih k hk

theorem ownedM_single (p : Ptr) : ownedM [p] = fil p := by
  rw [ownedM_cons, ownedM_nil, add_zero]

theorem not_mem_footprint {s : MState} {p : Ptr}
    (hown : p ∉ s.handles) (hdes : p ∉ s.destroyed) : p ∉ footprint s := by
  unfold footprint
  rw [Multiset.mem_add]
  rintro (h | h)
  · exact hown (mem_of_mem_ownedM h)
  · exact hdes (Multiset.mem_coe.mp h)

theorem nodup_add_fresh {m : Multiset Ptr} {p : Ptr}
    (hm : m.Nodup) (hp : p ∉ m) : (m + {p}).Nodup := by
  rw [add_comm, Multiset.singleton_add, Multiset.nodup_cons]
  exact ⟨hp, hm⟩

/-- Every handle operation preserves the machine invariant: the
footprint either stays the same multiset, shrinks (`release`), or grows
by a fresh address (construction from a raw address, `reset` to a fresh
address). -/
theorem step_preserves_inv {s s' : MState} (h : Step s s') (hinv : MInv s) :
    MInv s' := by
  cases h with
  | ctorDefault =>
    have : footprint ⟨s.handles ++ [nullptr], s.destroyed⟩ = footprint s := by
      unfold footprint
      rw [ownedM_append, ownedM_single, fil_nullptr, add_zero]
    rwa [MInv, this]
  | ctorFromRaw p hp hown hdes =>
    have hfp : footprint ⟨s.handles ++ [p], s.destroyed⟩
        = footprint s + {p} := by
      unfold footprint
      rw [ownedM_append, ownedM_single]
      have : fil p = {p} := by unfold fil; simp [hp]
      rw [this]
      abel
    rw [MInv, hfp]
    exact nodup_add_fresh hinv (not_mem_footprint hown hdes)
  | dtorStep i hi =>
    have hfp : footprint ⟨s.handles.eraseIdx i,
        s.destroyed ++ deleted (s.handles.getD i nullptr)⟩ = footprint s := by
      unfold footprint
      rw [← Multiset.coe_add, deleted_coe,
        ← ownedM_eraseIdx s.handles i hi]
      abel
    rwa [MInv, hfp]
  | transferCtorStep i hi =>
    have hfp : footprint ⟨s.handles.set i nullptr ++
        [s.handles.getD i nullptr], s.destroyed⟩ = footprint s := by
      unfold footprint
      rw [ownedM_append, ownedM_single, ownedM_set s.handles nullptr i hi,
        fil_nullptr, add_zero]
    rwa [MInv, hfp]
  | assignStep i j hi hj =>
    have hi1 : i < (s.handles.set j nullptr).length := by
      rwa [List.length_set]
    have hfp : footprint ⟨(assign_run s.handles i j).1,
        s.destroyed ++ (assign_run s.handles i j).2⟩ = footprint s := by
      unfold footprint assign_run
      simp only
      rw [← Multiset.coe_add, deleted_coe]
      have h1 := ownedM_set (s.handles.set j nullptr)
        (s.handles.getD j nullptr) i hi1
      have h2 := ownedM_set s.handles nullptr j hj
      rw [fil_nullptr, add_zero] at h2
      calc ownedM ((s.handles.set j nullptr).set i (s.handles.getD j nullptr))
            + (↑s.destroyed + fil ((s.handles.set j nullptr).getD i nullptr))
          = ownedM ((s.handles.set j nullptr).set i (s.handles.getD j nullptr))
            + fil ((s.handles.set j nullptr).getD i nullptr) + ↑s.destroyed := by
            abel
        _ = ownedM (s.handles.set j nullptr)
            + fil (s.handles.getD j nullptr) + ↑s.destroyed := by rw [h1]
        _ = ownedM s.handles + ↑s.destroyed := by rw [h2]
    rwa [MInv, hfp]
  | resetEmptyStep i hi =>
    have hfp : footprint ⟨s.handles.set i nullptr,
        s.destroyed ++ deleted (s.handles.getD i nullptr)⟩ = footprint s := by
      unfold footprint
      rw [← Multiset.coe_add, deleted_coe]
      have h1 := ownedM_set s.handles nullptr i hi
      rw [fil_nullptr, add_zero] at h1
      calc ownedM (s.handles.set i nullptr)
            + (↑s.destroyed + fil (s.handles.getD i nullptr))
          = ownedM (s.handles.set i nullptr)
            + fil (s.handles.getD i nullptr) + ↑s.destroyed := by abel
        _ = ownedM s.handles + ↑s.destroyed := by rw [h1]
    rwa [MInv, hfp]
  | resetStep i q hi hq hown hdes =>
    have hfp : footprint ⟨s.handles.set i q,
        s.destroyed ++ deleted (s.handles.getD i nullptr)⟩
        = footprint s + {q} := by
      unfold footprint
      rw [← Multiset.coe_add, deleted_coe]
      have h1 := ownedM_set s.handles q i hi
      have hfq : fil q = {q} := by unfold fil; simp [hq]
      calc ownedM (s.handles.set i q)
            + (↑s.destroyed + fil (s.handles.getD i nullptr))
          = ownedM (s.handles.set i q)
            + fil (s.handles.getD i nullptr) + ↑s.destroyed := by abel
        _ = ownedM s.handles + fil q + ↑s.destroyed := by rw [h1]
        _ = ownedM s.handles + ↑s.destroyed + {q} := by rw [hfq]; abel
    rw [MInv, hfp]
    exact nodup_add_fresh hinv (not_mem_footprint hown hdes)
  | releaseStep i hi =>
    have hle : footprint ⟨s.handles.set i nullptr, s.destroyed⟩
        ≤ footprint s := by
      unfold footprint
      have h1 := ownedM_set s.handles nullptr i hi
      rw [fil_nullptr, add_zero] at h1
      calc ownedM (s.handles.set i nullptr) + (s.destroyed : Multiset Ptr)
          ≤ ownedM (s.handles.set i nullptr)
            + fil (s.handles.getD i nullptr) + ↑s.destroyed := by
            rw [add_right_comm]
            exact Multiset.le_add_right _ _
        _ = ownedM s.handles + ↑s.destroyed := by rw [h1]
    exact Multiset.nodup_of_le hle hinv
  | swapStep i j hi hj =>
    have hj1 : j < (s.handles.set i (s.handles.getD j nullptr)).length := by
      rwa [List.length_set]
    have hgd : (s.handles.set i (s.handles.getD j nullptr)).getD j nullptr
        = s.handles.getD j nullptr := by
      by_cases hij : i = j
      · subst hij
        exact getD_set_self s.handles (s.handles.getD i nullptr) i hi
      · exact getD_set_other s.handles (s.handles.getD j nullptr) i j hij
    have hfp : footprint ⟨swap_run s.handles i j, s.destroyed⟩
        = footprint s := by
      unfold footprint swap_run
      simp only
      have h1 := ownedM_set (s.handles.set i (s.handles.getD j nullptr))
        (s.handles.getD i nullptr) j hj1
      rw [hgd] at h1
      have h2 := ownedM_set s.handles (s.handles.getD j nullptr) i hi
      have h3 : ownedM ((s.handles.set i (s.handles.getD j nullptr)).set j
          (s.handles.getD i nullptr)) = ownedM s.handles := by
        have := h1.trans h2
        exact add_right_cancel this
      rw [h3]
    rwa [MInv, hfp]

/-- The invariant holds in every reachable state. -/
theorem reachable_inv {s : MState} (h : Reachable s) : MInv s := by
  induction h with
  | refl =>
    show MInv MState.init
    unfold MInv footprint MState.init
    simp [ownedM_nil]
  | tail _ hstep ih => exact step_preserves_inv hstep ih

/-- In every reachable state the destruction log has no duplicate:
no owned object is ever destroyed more than once. -/
theorem reachable_destroyed_nodup {s : MState} (h : Reachable s) :
    s.destroyed.Nodup := by
  have hinv := reachable_inv h
  unfold MInv footprint at hinv
  have hle : (s.destroyed : Multiset Ptr) ≤ ownedM s.handles + ↑s.destroyed := by
    rw [add_comm]
    exact Multiset.le_add_right _ _
  exact Multiset.coe_nodup.mp (Multiset.nodup_of_le hle hinv)

/-! The claims. -/

/-- C1: for every object `x`, constructing a handle from `x`'s address
and letting the handle go out of scope (its destructor run) destroys
`x` exactly once — the destructor's log is exactly one destruction of
`x` and the stored address is set to the empty sentinel — and in every
reachable sequence of handle operations the destruction log never
repeats an address: no owned object is destroyed more than once. -/
theorem claim_C1_destroy_exactly_once (p : Ptr) (hp : p ≠ nullptr)
    (s : MState) (hs : Reachable s) :
    (unique_ptr.raw_ctor p).dtor.count p = 1 ∧
    ((unique_ptr.raw_ctor p).destroy).1.native_ptr_ = nullptr ∧
    s.destroyed.Nodup := by
  refine ⟨?_, rfl, reachable_destroyed_nodup hs⟩
  unfold unique_ptr.dtor unique_ptr.destroy unique_ptr.raw_ctor deleted
  simp [hp]

/-- Witness for C1 at the concrete address `1` and the state reached by
constructing one handle from that address. -/
theorem claim_C1_witness :
    (1 : Ptr) ≠ nullptr ∧
    Reachable ⟨[1], []⟩ ∧
    ((unique_ptr.raw_ctor 1).dtor.count 1 = 1 ∧
     ((unique_ptr.raw_ctor 1).destroy).1.native_ptr_ = nullptr ∧
     ([] : List Ptr).Nodup) := by
  have hreach : Reachable ⟨[1], []⟩ := by
    have h := Step.ctorFromRaw MState.init 1 (by decide)
      (by simp [MState.init]) (by simp [MState.init])
    exact Relation.ReflTransGen.single h
  exact ⟨by decide, hreach, claim_C1_destroy_exactly_once 1 (by decide) ⟨[1], []⟩ hreach⟩

/-- C2: transfer-constructing `b` from a handle `a` holding address `p`
yields `b.get() = p`, leaves `a` empty, and destroying `a` afterwards
destroys nothing (in particular not the object at `p`). -/
theorem claim_C2_transfer_ctor (a : unique_ptr) (p : Ptr) (hap : a.get = p) :
    (unique_ptr.transfer_ctor a).1.get = p ∧
    (unique_ptr.transfer_ctor a).2.get = nullptr ∧
    ((unique_ptr.transfer_ctor a).2).dtor = [] := by
  subst hap
  exact ⟨rfl, rfl, rfl⟩

/-- Witness for C2 at a handle holding address `5`. -/
theorem claim_C2_witness :
    (unique_ptr.mk 5).get = 5 ∧
    ((unique_ptr.transfer_ctor ⟨5⟩).1.get = 5 ∧
     (unique_ptr.transfer_ctor ⟨5⟩).2.get = nullptr ∧
     ((unique_ptr.transfer_ctor ⟨5⟩).2).dtor = []) :=
  ⟨rfl, claim_C2_transfer_ctor ⟨5⟩ 5 rfl⟩

/-- C3: the swap-based transfer-assignment (move `src` into the by-value
parameter, swap with `*this`, run the parameter's destructor) produces,
for distinct handles, exactly the final states and destructions of the
reference program "destroy what `dst` owns, then transfer-construct
from `src` into `dst`": as a pure pair program, and run over the slot
memory at any two distinct slots. -/
theorem claim_C3_assign_refines_spec (dst src : unique_ptr)
    (hs : List Ptr) (i j : Nat) (hi : i < hs.length) (hj : j < hs.length)
    (hij : i ≠ j) :
    unique_ptr.op_assign dst src = unique_ptr.assign_spec dst src ∧
    assign_run hs i j = assign_spec_run hs i j := by
  constructor
  · rfl
  · unfold assign_run assign_spec_run
    simp only
    have hlog : (hs.set j nullptr).getD i nullptr = hs.getD i nullptr :=
      getD_set_other hs nullptr j i (Ne.symm hij)
    have hget : (hs.set i nullptr).getD j nullptr = hs.getD j nullptr :=
      getD_set_other hs nullptr i j hij
    rw [hlog, hget, List.set_set]
    rw [List.set_comm _ _ _ hij]

/-- Witness for C3 at slots `0` and `1` of a two-handle memory. -/
theorem claim_C3_witness :
    (0 : Nat) < ([3, 4] : List Ptr).length ∧
    (1 : Nat) < ([3, 4] : List Ptr).length ∧
    (0 : Nat) ≠ 1 ∧
    (unique_ptr.op_assign ⟨3⟩ ⟨4⟩ = unique_ptr.assign_spec ⟨3⟩ ⟨4⟩ ∧
     assign_run [3, 4] 0 1 = assign_spec_run [3, 4] 0 1) :=
  ⟨by decide, by decide, by decide,
   claim_C3_assign_refines_spec ⟨3⟩ ⟨4⟩ [3, 4] 0 1 (by decide) (by decide)
     (by decide)⟩

/-- C4: self-transfer-assignment through `operator=` (slot `i` assigned
from slot `i` itself) leaves the slot memory unchanged — the handle
still holds the address it held before — and destroys nothing. -/
theorem claim_C4_self_assign (hs : List Ptr) (i : Nat) (hi : i < hs.length) :
    assign_run hs i i = (hs, []) := by
  unfold assign_run
  simp only
  rw [getD_set_self hs nullptr i hi, List.set_set,
    set_getD_self hs i hi]
  rfl

/-- Witness for C4: self-assignment of the only handle of `[7]`. -/
theorem claim_C4_witness :
    (0 : Nat) < ([7] : List Ptr).length ∧ assign_run [7] 0 0 = ([7], []) :=
  ⟨by decide, claim_C4_self_assign [7] 0 (by decide)⟩

/-- C5: `reset(q)` on a handle holding a non-null address `p` with
`q ≠ nullptr` and `p ≠ q` satisfies the asserted aliasing guard,
destroys the object at `p` exactly once (its log is exactly one
destruction of `p`), and leaves the handle holding `q`. -/
theorem claim_C5_reset_rebinds (u : unique_ptr) (p q : Ptr)
    (hup : u.get = p) (hp : p ≠ nullptr) (hq : q ≠ nullptr) (hpq : p ≠ q) :
    unique_ptr.reset_assert u q ∧
    (unique_ptr.reset u q).1.native_ptr_ = q ∧
    (unique_ptr.reset u q).2 = [p] ∧
    ((unique_ptr.reset u q).2).count p = 1 := by
  refine ⟨Or.inr ?_, rfl, ?_, ?_⟩
  · intro h
    exact hpq (hup ▸ h)
  · unfold unique_ptr.reset unique_ptr.destroy deleted
    simp only
    rw [show u.native_ptr_ = p from hup]
    simp [hp]
  · unfold unique_ptr.reset unique_ptr.destroy deleted
    simp only
    rw [show u.native_ptr_ = p from hup]
    simp [hp]

/-- Witness for C5: `reset(5)` on a handle holding `3`. -/
theorem claim_C5_witness :
    (unique_ptr.mk 3).get = 3 ∧ (3 : Ptr) ≠ nullptr ∧ (5 : Ptr) ≠ nullptr ∧
    (3 : Ptr) ≠ 5 ∧
    (unique_ptr.reset_assert ⟨3⟩ 5 ∧
     (unique_ptr.reset ⟨3⟩ 5).1.native_ptr_ = 5 ∧
     (unique_ptr.reset ⟨3⟩ 5).2 = [3] ∧
     ((unique_ptr.reset ⟨3⟩ 5).2).count 3 = 1) :=
  ⟨rfl, by decide, by decide, by decide,
   claim_C5_reset_rebinds ⟨3⟩ 3 5 rfl (by decide) (by decide) (by decide)⟩

/-- C6: `release()` returns the currently held address (the sentinel if
the handle was empty) and leaves the handle empty; run on any handle
slot of the machine it performs no destruction (the destruction log is
untouched). -/
theorem claim_C6_release (u : unique_ptr) (s : MState) (i : Nat)
    (hi : i < s.handles.length) :
    (unique_ptr.release u).1 = u.get ∧
    (unique_ptr.release u).2.native_ptr_ = nullptr ∧
    ∃ s', Step s s' ∧ s'.handles = s.handles.set i nullptr ∧
      s'.destroyed = s.destroyed := by
  exact ⟨rfl, rfl, ⟨s.handles.set i nullptr, s.destroyed⟩,
    Step.releaseStep s i hi, rfl, rfl⟩

/-- Witness for C6: `release()` on the only handle of `[4]`. -/
theorem claim_C6_witness :
    (0 : Nat) < (MState.mk [4] []).handles.length ∧
    ((unique_ptr.release ⟨4⟩).1 = (unique_ptr.mk 4).get ∧
     (unique_ptr.release ⟨4⟩).2.native_ptr_ = nullptr ∧
     ∃ s', Step ⟨[4], []⟩ s' ∧ s'.handles = ([4] : List Ptr).set 0 nullptr ∧
       s'.destroyed = []) :=
  ⟨by decide, claim_C6_release ⟨4⟩ ⟨[4], []⟩ 0 (by decide)⟩

/-- C7: `swap` exchanges exactly the two handles' addresses, performs
no construction or destruction (on the machine the destruction log is
untouched), and applying it twice returns both handles to their
original addresses. -/
theorem claim_C7_swap_involution (a b : unique_ptr) (s : MState) (i j : Nat)
    (hi : i < s.handles.length) (hj : j < s.handles.length) :
    (unique_ptr.swap a b).1.get = b.get ∧
    (unique_ptr.swap a b).2.get = a.get ∧
    unique_ptr.swap (unique_ptr.swap a b).1 (unique_ptr.swap a b).2 = (a, b) ∧
    ∃ s', Step s s' ∧ s'.handles = swap_run s.handles i j ∧
      s'.destroyed = s.destroyed := by
  exact ⟨rfl, rfl, rfl, ⟨swap_run s.handles i j, s.destroyed⟩,
    Step.swapStep s i j hi hj, rfl, rfl⟩

/-- Witness for C7: handles holding `3` and `4`, slots `0` and `1`. -/
theorem claim_C7_witness :
    (0 : Nat) < (MState.mk [3, 4] []).handles.length ∧
    (1 : Nat) < (MState.mk [3, 4] []).handles.length ∧
    ((unique_ptr.swap ⟨3⟩ ⟨4⟩).1.get = (unique_ptr.mk 4).get ∧
     (unique_ptr.swap ⟨3⟩ ⟨4⟩).2.get = (unique_ptr.mk 3).get ∧
     unique_ptr.swap (unique_ptr.swap ⟨3⟩ ⟨4⟩).1 (unique_ptr.swap ⟨3⟩ ⟨4⟩).2
       = (⟨3⟩, ⟨4⟩) ∧
     ∃ s', Step ⟨[3, 4], []⟩ s' ∧ s'.handles = swap_run [3, 4] 0 1 ∧
       s'.destroyed = []) :=
  ⟨by decide, by decide,
   claim_C7_swap_involution ⟨3⟩ ⟨4⟩ ⟨[3, 4], []⟩ 0 1 (by decide) (by decide)⟩

/-- C8: `reset()` destroys the currently owned object if any (its log
is exactly the `delete` of the stored pointer) and sets the handle to
the empty sentinel; on an already-empty handle it is a no-op that
performs no destruction and leaves the handle empty. -/
theorem claim_C8_reset_idempotent (u : unique_ptr) :
    (unique_ptr.reset_empty u).1.native_ptr_ = nullptr ∧
    (unique_ptr.reset_empty u).2 = deleted u.native_ptr_ ∧
    (u.native_ptr_ = nullptr → unique_ptr.reset_empty u = (u, [])) := by
  refine ⟨rfl, rfl, fun h => ?_⟩
  unfold unique_ptr.reset_empty unique_ptr.destroy deleted
  cases u with
  | mk v =>
    simp only at h
    subst h
    simp

/-- Witness for C8: `reset()` on an empty handle is a no-op. -/
theorem claim_C8_witness :
    ((unique_ptr.reset_empty ⟨nullptr⟩).1.native_ptr_ = nullptr ∧
     (unique_ptr.reset_empty ⟨nullptr⟩).2 = deleted nullptr ∧
     unique_ptr.reset_empty ⟨nullptr⟩ = (⟨nullptr⟩, [])) := by
  have h := claim_C8_reset_idempotent ⟨nullptr⟩
  exact ⟨h.1, h.2.1, h.2.2 rfl⟩

/-- C9: all six comparison operators are determined purely by the two
stored addresses — equality holds iff the addresses are equal and each
ordering holds iff the addresses order that way — so two empty handles
compare equal and an empty handle compares unequal to any handle
holding a non-empty address. -/
theorem claim_C9_comparisons (l r : unique_ptr) :
    (op_eq l r = true ↔ l.get = r.get) ∧
    (op_ne l r = true ↔ l.get ≠ r.get) ∧
    (op_le l r = true ↔ l.get ≤ r.get) ∧
    (op_lt l r = true ↔ l.get < r.get) ∧
    (op_ge l r = true ↔ l.get ≥ r.get) ∧
    (op_gt l r = true ↔ l.get > r.get) ∧
    (l.get = nullptr → r.get = nullptr → op_eq l r = true) ∧
    (l.get = nullptr → r.get ≠ nullptr → op_ne l r = true) := by
  unfold op_eq op_ne op_le op_lt op_ge op_gt
  refine ⟨by simp, by simp, by simp, by simp, by simp, by simp, ?_, ?_⟩
  · intro hl hr
    simp [hl, hr]
  · intro hl hr
    simp [hl]
    exact fun h => hr h.symm

/-- Witness for C9: two empty handles compare equal, and an empty
handle compares unequal to a handle holding `2`. -/
theorem claim_C9_witness :
    op_eq ⟨nullptr⟩ ⟨nullptr⟩ = true ∧ op_ne ⟨nullptr⟩ ⟨2⟩ = true := by
  refine ⟨(claim_C9_comparisons ⟨nullptr⟩ ⟨nullptr⟩).2.2.2.2.2.2.1 rfl rfl, ?_⟩
  exact (claim_C9_comparisons ⟨nullptr⟩ ⟨2⟩).2.2.2.2.2.2.2 rfl (by decide)

/-- C10: when the handle is non-empty, dereference (both `operator*`
and `operator->`) returns access to the object at the stored address
and the assertion branch is not taken; on an empty handle both are
halted by the fatal debug assertion. -/
theorem claim_C10_deref_contract (u : unique_ptr) :
    (u.native_ptr_ ≠ nullptr →
      op_star u = .ok u.native_ptr_ ∧ op_arrow u = .ok u.native_ptr_) ∧
    (u.native_ptr_ = nullptr →
      op_star u = .assertHalt ∧ op_arrow u = .assertHalt) := by
  unfold op_star op_arrow
  constructor
  · intro h
    rw [if_pos (Ne.symm h)]
    exact ⟨rfl, rfl⟩
  · intro h
    rw [if_neg (fun hne => hne h.symm)]
    exact ⟨rfl, rfl⟩

/-- Witness for C10: dereference of a handle holding `1` succeeds;
dereference of an empty handle halts on the assertion. -/
theorem claim_C10_witness :
    (op_star ⟨1⟩ = .ok 1 ∧ op_arrow ⟨1⟩ = .ok 1) ∧
    (op_star ⟨nullptr⟩ = .assertHalt ∧ op_arrow ⟨nullptr⟩ = .assertHalt) :=
  ⟨(claim_C10_deref_contract ⟨1⟩).1 (by decide),
   (claim_C10_deref_contract ⟨nullptr⟩).2 rfl⟩
